import Mathlib

/-!
Verification of the vee-validate validation engine against its
natural-language specification.

The repository ships the engine's public type declarations
(`src/types/vee-validate.d.ts`) and a Workbox service worker
(`src/unnamed/part_000`). The engine's executable implementation
(Validator, Field, ErrorBag, rule pipeline) is not part of the shipped
sources, so those components are modelled from the specification; the
service worker message handler is embedded directly from its source.
-/

namespace VeeValidate

/-- Field values are modelled as strings (form input values). -/
abbrev Val := String

/-! ## Field flags (spec §3 Field, §4.2 state machine; `FieldFlags` in
`src/types/vee-validate.d.ts` lines 91-101) -/

/-- Modelled from the spec: the `FieldFlags` record of a `Field`
(declared in `src/types/vee-validate.d.ts:91`; the implementing class is
not in the shipped sources). `valid`/`invalid` are optional — unset until
the field has been validated. -/
structure FieldFlags where
  untouched : Bool
  touched : Bool
  dirty : Bool
  pristine : Bool
  valid : Option Bool
  invalid : Option Bool
  validated : Bool
  required : Bool
  pending : Bool
deriving Repr, DecidableEq

/-- Modelled from the spec: flags on attach (spec §4.2 Attach):
`untouched:true, touched:false, pristine:!initial, dirty:initial,
validated:false, pending:false, required` derived from rules. -/
def attachFlags (initial : Bool) (required : Bool) : FieldFlags :=
  { untouched := true
    touched := false
    dirty := initial
    pristine := !initial
    valid := none
    invalid := none
    validated := false
    required := required
    pending := false }

/-- Modelled from the spec: interaction observed (spec §4.2):
sets `dirty`/`touched`, clears `pristine`/`untouched`; does not by itself
mark `validated`. -/
def interactFlags (f : FieldFlags) : FieldFlags :=
  { f with dirty := true, pristine := false, touched := true, untouched := false }

/-- Modelled from the spec: validation requested (spec §4.2):
transitions to `pending:true`. -/
def pendingFlags (f : FieldFlags) : FieldFlags :=
  { f with pending := true }

/-- Modelled from the spec: validation completion (spec §4.2): sets
`pending:false`, `validated:true`, and `valid`/`invalid` from the
aggregate result. -/
def completeFlags (f : FieldFlags) (ok : Bool) : FieldFlags :=
  { f with pending := false, validated := true, valid := some ok, invalid := some (!ok) }

/-- Modelled from the spec: reset (spec §4.2) returns flags to the
post-attach state. -/
def resetFlags (initial : Bool) (required : Bool) : FieldFlags :=
  attachFlags initial required

/-- The flag-consistency invariant of spec §3:
`touched == !untouched`, `dirty == !pristine`, `valid`/`invalid` unset
until `validated`, and never simultaneously valid and invalid. -/
def consistentFlags (f : FieldFlags) : Prop :=
  f.touched = !f.untouched ∧
  f.dirty = !f.pristine ∧
  (f.validated = false → f.valid = none ∧ f.invalid = none) ∧
  ¬(f.valid = some true ∧ f.invalid = some true)

instance (f : FieldFlags) : Decidable (consistentFlags f) := by
  unfold consistentFlags; infer_instance

/-- Flag records reachable by the field state machine of spec §4.2:
attach, interaction, validation request, validation completion, reset. -/
inductive ReachableFlags : FieldFlags → Prop
  | attach (initial required : Bool) : ReachableFlags (attachFlags initial required)
  | interact {f : FieldFlags} : ReachableFlags f → ReachableFlags (interactFlags f)
  | request {f : FieldFlags} : ReachableFlags f → ReachableFlags (pendingFlags f)
  | complete {f : FieldFlags} (ok : Bool) :
      ReachableFlags f → ReachableFlags (completeFlags f ok)
  | reset {f : FieldFlags} (initial required : Bool) :
      ReachableFlags f → ReachableFlags (resetFlags initial required)

/-! ## Error bag items (spec §3 ErrorBag item; `FieldError` in
`src/types/vee-validate.d.ts` lines 222-229) -/

/-- Modelled from the spec: an ErrorBag item
`{fieldId, fieldName, scope, rule, message}` (the `FieldError` interface
is declared in `src/types/vee-validate.d.ts:222`; the implementing
`ErrorBag` class body is not in the shipped sources). -/
structure ErrItem where
  fieldId : String
  fieldName : String
  scope : Option String
  rule : String
  msg : String
deriving Repr, DecidableEq

/-! ## Per-field validation state and the validation token (spec §4.3.5,
§5; `Field.waitFor` in `src/types/vee-validate.d.ts:170-173`) -/

/-- Modelled from the spec: the per-field mutable validation state — an
`active validation token` (spec §3) alongside flags; the implementing
`Field` class body (`waitFor`/`isWaitingFor`) is not in the shipped
sources. -/
structure FieldSt where
  token : Nat
  flags : FieldFlags
deriving Repr, DecidableEq

/-- A field's view of shared state: its own state plus its ErrorBag
entries. -/
structure FieldCtx where
  fld : FieldSt
  entries : List ErrItem
deriving Repr, DecidableEq

/-- The final result of one validation run over a field's rules
(spec §4.3.7 shape, `VerifyResult` in `src/types/vee-validate.d.ts:339`). -/
structure RunResult where
  valid : Bool
  errors : List String
  failedRules : List (String × String)
deriving Repr, DecidableEq

/-- Modelled from the spec: each validation call for a field increments
that field's validation token (spec §4.3.5) and marks it pending
(spec §4.2). Returns the token the new run was issued under. -/
def startRun (c : FieldCtx) : Nat × FieldCtx :=
  (c.fld.token + 1,
   { c with fld := { token := c.fld.token + 1, flags := pendingFlags c.fld.flags } })

/-- Modelled from the spec: on completion the field's flags are updated
and its ErrorBag entries are replaced by one entry per failed rule
(spec §4.3.6). -/
def completeRun (c : FieldCtx) (fieldId fieldName : String) (scope : Option String)
    (res : RunResult) : FieldCtx :=
  { fld := { c.fld with flags := completeFlags c.fld.flags res.valid },
    entries := res.failedRules.map (fun p =>
      { fieldId := fieldId, fieldName := fieldName, scope := scope,
        rule := p.1, msg := p.2 }) }

/-- Modelled from the spec: stale-result discarding (spec §4.3.5, §5) —
an asynchronous result is applied only if the token it was issued under
still matches the field's current token; otherwise it is silently
discarded without mutating any state. -/
def applyAsyncResult (c : FieldCtx) (issued : Nat) (fieldId fieldName : String)
    (scope : Option String) (res : RunResult) : FieldCtx :=
  if issued = c.fld.token then completeRun c fieldId fieldName scope res else c

/-! ## Rule registry and rule execution pipeline (spec §3 Rule, §4.1,
§4.3; `Rule`, `Rules`, `Validator.verify` in
`src/types/vee-validate.d.ts`) -/

/-- Outcome of invoking a rule's predicate: a boolean, or an unexpected
throw/rejection (spec §7). -/
inductive RuleOutcome where
  | ok (b : Bool)
  | threw
deriving Repr, DecidableEq

/-- Modelled from the spec: a rule's `validate` returns either a
synchronous boolean or a pending asynchronous result (spec §3 Rule,
`RuleValidate` in `src/types/vee-validate.d.ts:72`); the eventual
outcome of an asynchronous return is carried for later joining. -/
inductive RuleReturn where
  | sync (o : RuleOutcome)
  | async (o : RuleOutcome)
deriving Repr, DecidableEq

/-- Modelled from the spec: a registered rule — `validate` predicate,
declared parameter names, and the `hasTarget`/`computesRequired`/`initial`
flags (spec §3 Rule; the `Rule` interface of
`src/types/vee-validate.d.ts:76` declares only the shape). -/
structure RuleDef where
  validate : Val → List Val → RuleReturn
  paramNames : List String
  hasTarget : Bool
  computesRequired : Bool
  initial : Bool

/-- Modelled from the spec: the rule registry, keyed by name,
case-sensitive (spec §3); re-registering a name overwrites, so lookup
takes the first entry. -/
abbrev Registry := List (String × RuleDef)

/-- Modelled from the spec: `resolve(name)` (spec §4.1) — fails closed
when the name is absent. -/
def resolveRule (reg : Registry) (n : String) : Option RuleDef :=
  (reg.find? (fun p => p.1 == n)).map (fun p => p.2)

/-- One entry of a field's ordered rule list: rule name plus raw
parameter tokens (spec §6 rule DSL, already parsed). -/
structure RuleSpec where
  name : String
  params : List String
deriving Repr, DecidableEq

/-- Structural misconfiguration errors (spec §7 error taxonomy). -/
inductive ConfigError where
  | unknownRule (name : String)
  | unknownField (name : String)
deriving Repr, DecidableEq

/-- Modelled from the spec: parameter resolution (spec §4.3.1) — for a
`hasTarget` rule, a parameter naming another field is substituted with
that field's current value, read at execution time. -/
def resolveParams (rd : RuleDef) (env : String → Option Val) (params : List String) :
    List Val :=
  if rd.hasTarget then
    params.map (fun p => (env p).getD p)
  else
    params

/-- Modelled from the spec: the message-lookup collaborator (spec §4.3.6)
— produces the message for a failed rule from field name and rule name. -/
def messageFor (fieldName ruleName : String) : String :=
  "The " ++ fieldName ++ " field fails the " ++ ruleName ++ " rule"

/-- The synchronous phase's output: validity so far, error messages,
failed-rule map, the rules actually invoked (in order), and the
asynchronous results still pending. -/
structure PipeOut where
  valid : Bool
  errors : List String
  failedRules : List (String × String)
  executed : List String
  pendingAsync : List (String × RuleOutcome)
deriving Repr, DecidableEq

/-- Modelled from the spec: the synchronous sweep of the rule execution
pipeline (spec §4.3 steps 1-3): resolve each rule in declaration order
(unknown name is an `UnknownRuleError`), invoke it, consume synchronous
booleans immediately, register asynchronous results, treat an unexpected
throw as a failed rule (spec §7), and bail on the first synchronous
failure when `bails` is set. -/
def runRulesCore (reg : Registry) (bails : Bool) (fieldName : String)
    (env : String → Option Val) (v : Val) :
    List RuleSpec → Except ConfigError PipeOut
  | [] => .ok { valid := true, errors := [], failedRules := [], executed := [],
                pendingAsync := [] }
  | r :: rest =>
    match resolveRule reg r.name with
    | none => .error (.unknownRule r.name)
    | some rd =>
      let args := resolveParams rd env r.params
      let m := messageFor fieldName r.name
      match rd.validate v args with
      | .sync (.ok true) =>
        (runRulesCore reg bails fieldName env v rest).map fun out =>
          { out with executed := r.name :: out.executed }
      | .sync (.ok false) =>
        if bails then
          .ok { valid := false, errors := [m], failedRules := [(r.name, m)], 
                executed := [r.name], pendingAsync := [] }
        else
          (runRulesCore reg bails fieldName env v rest).map fun out =>
            { out with
              valid := false
              errors := m :: out.errors
              failedRules := (r.name, m) :: out.failedRules
              executed := r.name :: out.executed }
      | .sync .threw =>
        if bails then
          .ok { valid := false, errors := [m], failedRules := [(r.name, m)], 
                executed := [r.name], pendingAsync := [] }
        else
          (runRulesCore reg bails fieldName env v rest).map fun out =>
            { out with
              valid := false
              errors := m :: out.errors
              failedRules := (r.name, m) :: out.failedRules
              executed := r.name :: out.executed }
      | .async o =>
        (runRulesCore reg bails fieldName env v rest).map fun out =>
          { out with
            executed := r.name :: out.executed
            pendingAsync := (r.name, o) :: out.pendingAsync }

/-- Whether a pending asynchronous outcome is a failure (a `false`
predicate or an unexpected throw, spec §7). -/
def asyncFailed (o : RuleOutcome) : Bool :=
  match o with
  | .ok b => !b
  | .threw => true

/-- Modelled from the spec: asynchronous aggregation (spec §4.3.4) — the
overall result waits for all pending results; when bailing the earliest
failure wins, otherwise all failure reasons are surfaced. -/
def joinAsync (bails : Bool) (fieldName : String) (out : PipeOut) : RunResult :=
  let fails := out.pendingAsync.filter (fun p => asyncFailed p.2)
  let kept := if bails then (if out.valid then fails.take 1 else []) else fails
  let extra := kept.map (fun p => (p.1, messageFor fieldName p.1))
  { valid := out.valid && fails.isEmpty,
    errors := out.errors ++ extra.map (fun p => p.2),
    failedRules := out.failedRules ++ extra }

/-- The full pipeline for one field: synchronous sweep then asynchronous
join, yielding the `{valid, errors, failedRules}` shape of spec §4.3.7. -/
def runPipeline (reg : Registry) (bails : Bool) (fieldName : String)
    (env : String → Option Val) (v : Val) (rules : List RuleSpec) :
    Except ConfigError RunResult :=
  (runRulesCore reg bails fieldName env v rules).map (joinAsync bails fieldName)

/-! ## Validator state and orchestration (spec §3 Validator, §4.4;
`Validator` in `src/types/vee-validate.d.ts:360-465`) -/

/-- Modelled from the spec: one attached field as the Validator sees it —
identity, rule list, value accessor snapshot, token and flags (the
`Field` class of `src/types/vee-validate.d.ts:124` declares the shape;
its implementation is not in the shipped sources). -/
structure FieldRec where
  id : String
  name : String
  scope : Option String
  rules : List RuleSpec
  bails : Bool
  value : Val
  token : Nat
  flags : FieldFlags
deriving Repr, DecidableEq

/-- Modelled from the spec: the Validator owns one FieldBag and one
ErrorBag, references the rule registry, and holds `paused` and `fastExit`
(spec §3 Validator; `Validator` fields in
`src/types/vee-validate.d.ts:361-364`). -/
structure ValidatorState where
  registry : Registry
  fields : List FieldRec
  bag : List ErrItem
  fastExit : Bool
  paused : Bool

/-- The live-value environment over a validator's fields: a target
parameter naming a field resolves to that field's current value. -/
def fieldEnv (s : ValidatorState) : String → Option Val :=
  fun n => ((s.fields.find? (fun f => f.name == n)).map (fun f => f.value))

/-- The environment with a supplied value map overriding live value
accessors (spec §4.4 validateAll). -/
def overrideEnv (s : ValidatorState) (values : List (String × Val)) :
    String → Option Val :=
  fun n =>
    match values.find? (fun p => p.1 == n) with
    | some p => some p.2
    | none => fieldEnv s n

/-- The value a field is validated against, given an optional override
map. -/
def effectiveValue (values : List (String × Val)) (f : FieldRec) : Val :=
  match values.find? (fun p => p.1 == f.name) with
  | some p => p.2
  | none => f.value

/-- The full pipeline result for one attached field. -/
def fieldResult (s : ValidatorState) (values : List (String × Val))
    (f : FieldRec) : Except ConfigError RunResult :=
  runPipeline s.registry f.bails f.name (overrideEnv s values)
    (effectiveValue values f) f.rules

/-- Replace a field's ErrorBag entries by the entries of a fresh result
(spec §4.3.6: remove this field's previous entries, add one per failed
rule). -/
def syncBag (bag : List ErrItem) (f : FieldRec) (res : RunResult) : List ErrItem :=
  bag.filter (fun e => e.fieldId != f.id) ++
    res.failedRules.map (fun p =>
      { fieldId := f.id, fieldName := f.name, scope := f.scope,
        rule := p.1, msg := p.2 })

/-- A field after a completed validation run: token already bumped at
issue time, flags completed from the aggregate result. -/
def completedField (f : FieldRec) (res : RunResult) : FieldRec :=
  { f with flags := completeFlags f.flags res.valid }

/-- Modelled from the spec: `validate(fieldSelector, value?)` (spec
§4.4): if `paused`, resolves immediately as valid without running rules
and without side effects; otherwise bumps the field's token, runs the
pipeline §4.3, updates flags and synchronizes the ErrorBag. Unknown
selectors are structural errors. -/
def validateField (s : ValidatorState) (fieldId : String) (value : Option Val) :
    Except ConfigError Bool × ValidatorState :=
  if s.paused then (.ok true, s)
  else
    match s.fields.find? (fun f => f.id == fieldId) with
    | none => (.error (.unknownField fieldId), s)
    | some f =>
      let issued := f.token + 1
      let started : FieldRec :=
        { f with token := issued, flags := pendingFlags f.flags }
      match runPipeline s.registry f.bails f.name (fieldEnv s)
          (value.getD f.value) f.rules with
      | .error e =>
        (.error e,
         { s with fields := s.fields.map (fun g => if g.id == fieldId then started else g) })
      | .ok res =>
        let done := completedField started res
        (.ok res.valid,
         { s with
           fields := s.fields.map (fun g => if g.id == fieldId then done else g)
           bag := syncBag s.bag f res })

/-- Modelled from the spec: the issue phase of `validateAll` (spec §5):
all per-field validations are issued — every token bumped, every field
pending — before any result is joined. -/
def startAllFields (s : ValidatorState) : ValidatorState :=
  { s with
    fields := s.fields.map (fun f =>
      { f with token := f.token + 1, flags := pendingFlags f.flags }) }

/-- Modelled from the spec: the join phase of `validateAll` — each
field's completed result is applied to its flags and the ErrorBag. -/
def applyAllResults (s : ValidatorState) (results : List (FieldRec × RunResult)) :
    ValidatorState :=
  { s with
    fields := s.fields.map (fun f =>
      match results.find? (fun p => p.1.id == f.id) with
      | some p => completedField f p.2
      | none => f)
    bag := results.foldl (fun b p => syncBag b p.1 p.2) s.bag }

/-- Collect each field's pipeline result, pairing fields with results;
a structural error in any field rejects the whole collection. -/
def collectResults (s : ValidatorState) (values : List (String × Val)) :
    List FieldRec → Except ConfigError (List (FieldRec × RunResult))
  | [] => .ok []
  | f :: fs =>
    match fieldResult s values f with
    | .error e => .error e
    | .ok r => (collectResults s values fs).map (fun l => (f, r) :: l)

/-- Modelled from the spec: `validateAll(values?)` (spec §4.4, §5): a
no-op returning valid while paused; otherwise issues the pipeline for
every attached field (the supplied value map overriding live accessors),
joins all results, and aggregates validity as the conjunction of the
per-field validities. A structural error in any field rejects the call. -/
def validateAll (s : ValidatorState) (values : List (String × Val)) :
    Except ConfigError Bool × ValidatorState :=
  if s.paused then (.ok true, s)
  else
    let issued := startAllFields s
    match collectResults s values s.fields with
    | .error e => (.error e, issued)
    | .ok results =>
      (.ok (results.all (fun p => p.2.valid)), applyAllResults issued results)

/-- Options of `verify` (`VerifyOptions` in
`src/types/vee-validate.d.ts:345-349`). -/
structure VerifyOpts where
  bails : Option Bool
  name : Option String
  values : List (String × Val)

/-- Modelled from the spec: `verify(value, rules, options)` (spec §4.4):
stateless one-off validation — builds an ephemeral rule list and runs
the §4.3 pipeline without touching any Field or the ErrorBag, returning
the `{valid, errors, failedRules}` shape and the unchanged state. -/
def verify (s : ValidatorState) (v : Val) (rules : List RuleSpec)
    (opts : VerifyOpts) : Except ConfigError RunResult × ValidatorState :=
  (runPipeline s.registry (opts.bails.getD s.fastExit)
     (opts.name.getD "field") (fun n => (opts.values.find? (fun p => p.1 == n)).map (fun p => p.2))
     v rules,
   s)

/-- Modelled from the spec: `pause()` sets the `paused` flag
(spec §4.4). -/
def pauseValidator (s : ValidatorState) : ValidatorState :=
  { s with paused := true }

/-- Modelled from the spec: `resume()` clears the `paused` flag
(spec §4.4). -/
def resumeValidator (s : ValidatorState) : ValidatorState :=
  { s with paused := false }

/-! ## DependencyGraph and cascade (spec §3 DependencyGraph, §4.5;
`Field.dependencies` / `Field.updateDependencies` in
`src/types/vee-validate.d.ts:128,187-190`) -/

/-- Modelled from the spec: the dependency graph as an explicit edge
list — an edge `(b, a)` records `b → a`, i.e. field `a`'s rule reads
field `b`'s value (spec §4.5; the `dependencies` structure of the
`Field` class is only declared in the shipped sources). -/
abbrev DepGraph := List (String × String)

/-- The fields watching `b`: every `a` with an edge `b → a`. -/
def dependentsOf (g : DepGraph) (b : String) : List String :=
  (g.filter (fun e => e.1 == b)).map (fun e => e.2)

/-- Modelled from the spec: one cascade run (spec §4.5) — a worklist of
fields scheduled for revalidation, processed against the set of fields
not yet revalidated in this run (the complement of the visited-set); a
field already revalidated is skipped, a fresh field is revalidated and
its dependents are scheduled. Returns the revalidation order. -/
def cascadeAux (g : DepGraph) : List String → List String → List String
  | [], _ => []
  | f :: rest, avail =>
    if h : f ∈ avail then
      f :: cascadeAux g (rest ++ dependentsOf g f) (avail.erase f)
    else
      cascadeAux g rest avail
termination_by queue avail => (avail.length, queue.length)
decreasing_by
  · exact Prod.Lex.left _ _ (by
      rw [List.length_erase_of_mem h]
      exact Nat.sub_lt (List.length_pos_of_mem h) Nat.one_pos)
  · exact Prod.Lex.right _ (Nat.lt_succ_self _)

/-- Modelled from the spec: the cascade triggered by field `b` (value
change or completed validation, spec §4.5): `b` itself revalidates and
scheduling spreads through the graph, each field at most once per run. -/
def cascadeRun (g : DepGraph) (b : String) : List String :=
  cascadeAux g [b] ((b :: g.map (fun e => e.2)).dedup)

/-! ## ErrorBag read surface (spec §6; `ErrorBag.first` in
`src/types/vee-validate.d.ts:272-275`) -/

/-- Whether an ErrorBag item belongs to the given field and scope. -/
def errMatches (field : String) (scope : Option String) (e : ErrItem) : Bool :=
  e.fieldName == field && e.scope == scope

/-- Modelled from the spec: `ErrorBag.first(field, scope?)` (spec §6;
declared at `src/types/vee-validate.d.ts:275`) — the first error message
recorded for the field in insertion order, or nothing when the field has
no entry. -/
def bagFirst (items : List ErrItem) (field : String) (scope : Option String) :
    Option String :=
  ((items.filter (errMatches field scope)).head?).map (fun e => e.msg)

end VeeValidate

namespace ServiceWorker

/-! ## Service worker message handler, embedded from
`src/unnamed/part_000` lines 501-512. -/

/-- The `event.data` payload: its `type` property, absent for messages
without one. -/
structure MsgData where
  type : Option String
deriving Repr, DecidableEq

/-- A message event as the handler reads it: whether `event.ports[0]` is
present (truthy) and the `event.data` payload (`none` for a null or
undefined message). -/
structure MsgEvent where
  hasReplyPort : Bool
  message : Option MsgData
deriving Repr, DecidableEq

/-- The outcome of `self.skipWaiting()`, supplied by the environment:
fulfilled, or rejected with a reason. -/
inductive SkipOutcome where
  | fulfilled
  | rejected (reason : String)
deriving Repr, DecidableEq

/-- The object posted back on the reply port: `{ error: null }` on
success, `{ error }` on failure. -/
structure Reply where
  error : Option String
deriving Repr, DecidableEq

/-- The handler's observable effects: whether `self.skipWaiting()` was
invoked, and the message posted to the reply port, if any. -/
structure HandlerEffect where
  skipWaitingCalled : Bool
  reply : Option Reply
deriving Repr, DecidableEq

/-- The `message` event listener of `src/unnamed/part_000:501-512`:
`if (replyPort && message && message.type === 'skip-waiting')` it awaits
`self.skipWaiting()` and posts `{ error: null }` on fulfillment or
`{ error }` on rejection; otherwise it does nothing. -/
def handleMessage (ev : MsgEvent) (skip : SkipOutcome) : HandlerEffect :=
  match ev.message with
  | some m =>
    if ev.hasReplyPort && (m.type == some "skip-waiting") then
      { skipWaitingCalled := true
        reply := some
          { error :=
              match skip with
              | .fulfilled => none
              | .rejected reason => some reason } }
    else
      { skipWaitingCalled := false, reply := none }
  | none => { skipWaitingCalled := false, reply := none }

end ServiceWorker

namespace VeeValidate

/-! ## Concrete instances used by the witnesses -/

/-- A rule whose predicate synchronously passes. -/
def rulePass : RuleDef :=
  { validate := fun _ _ => .sync (.ok true), paramNames := [], hasTarget := false,
    computesRequired := false, initial := false }

/-- A rule whose predicate synchronously fails. -/
def ruleFail : RuleDef :=
  { validate := fun _ _ => .sync (.ok false), paramNames := [], hasTarget := false,
    computesRequired := false, initial := false }

/-- A rule whose implementation throws unexpectedly. -/
def ruleThrows : RuleDef :=
  { validate := fun _ _ => .sync .threw, paramNames := [], hasTarget := false,
    computesRequired := false, initial := false }

/-- A small registry: a failing rule, two passing rules, a throwing
rule. -/
def demoReg : Registry :=
  [("r1", ruleFail), ("r2", rulePass), ("r3", rulePass), ("boom", ruleThrows)]

/-- A field whose single rule passes. -/
def demoField1 : FieldRec :=
  { id := "1", name := "a", scope := none, rules := [{ name := "r2", params := [] }],
    bails := true, value := "x", token := 0, flags := attachFlags false false }

/-- A field whose single rule fails. -/
def demoField2 : FieldRec :=
  { id := "2", name := "b", scope := none, rules := [{ name := "r1", params := [] }],
    bails := true, value := "y", token := 0, flags := attachFlags false false }

/-- A validator owning the two demo fields. -/
def demoState : ValidatorState :=
  { registry := demoReg, fields := [demoField1, demoField2], bag := [],
    fastExit := true, paused := false }

/-- The per-field results of validating the demo state. -/
def demoResults : List (FieldRec × RunResult) :=
  [(demoField1, { valid := true, errors := [], failedRules := [] }),
   (demoField2, { valid := false, errors := [messageFor "b" "r1"],
                  failedRules := [("r1", messageFor "b" "r1")] })]

/-- Demo ErrorBag items: two for field `email`, one for field `name`. -/
def demoErrA : ErrItem :=
  { fieldId := "1", fieldName := "email", scope := none, rule := "required", msg := "m1" }

/-- Second demo item for field `email`. -/
def demoErrB : ErrItem :=
  { fieldId := "1", fieldName := "email", scope := none, rule := "min", msg := "m2" }

/-- Demo item for field `name`. -/
def demoErrC : ErrItem :=
  { fieldId := "2", fieldName := "name", scope := none, rule := "required", msg := "m3" }

/-! ## Theorems -/

/-- C2: for every field after attach, `touched == !untouched` and
`dirty == !pristine`; `valid`/`invalid` stay unset until `validated`;
valid and invalid are never both true; and every state-machine operation
(attach, interaction, validation request, validation completion, reset)
preserves this consistency. -/
theorem reachable_flags_consistent (f : FieldFlags) (h : ReachableFlags f) :
    consistentFlags f := by
  induction h with
  | attach initial required =>
    simp [consistentFlags, attachFlags]
  | interact _ ih =>
    obtain ⟨_, _, h3, h4⟩ := ih
    refine ⟨by simp [interactFlags], by simp [interactFlags], ?_, ?_⟩
    · intro hv
      exact h3 hv
    · exact h4
  | request _ ih =>
    obtain ⟨h1, h2, h3, h4⟩ := ih
    exact ⟨h1, h2, h3, h4⟩
  | complete ok _ ih =>
    obtain ⟨h1, h2, _, _⟩ := ih
    refine ⟨h1, h2, by simp [completeFlags], ?_⟩
    simp only [completeFlags]
    cases ok <;> simp
  | reset initial required _ =>
    simp [consistentFlags, resetFlags, attachFlags]

/-- Witness for C2: a concrete reachable flag record — attach, interact,
then complete a successful validation — is consistent. -/
theorem reachable_flags_consistent_witness :
    consistentFlags (completeFlags (interactFlags (attachFlags false true)) true) :=
  reachable_flags_consistent _
    (((ReachableFlags.attach false true).interact).complete true)

/-- C1: each validation call increments the field's validation token; an
asynchronous result is applied only when its issued token equals the
field's current token — a stale token leaves flags and ErrorBag entries
untouched — so of two overlapping runs only the most recently started
one can mutate the field's final state. -/
theorem validation_token_latest_wins (c : FieldCtx) (issued : Nat)
    (fid fname : String) (sc : Option String) (res res1 res2 : RunResult)
    (hstale : issued ≠ c.fld.token) :
    (startRun c).1 = c.fld.token + 1 ∧
    (startRun c).2.fld.token = c.fld.token + 1 ∧
    applyAsyncResult c issued fid fname sc res = c ∧
    applyAsyncResult (startRun (startRun c).2).2 (startRun c).1 fid fname sc res1 =
      (startRun (startRun c).2).2 ∧
    applyAsyncResult (startRun (startRun c).2).2 (startRun (startRun c).2).1
        fid fname sc res2 =
      completeRun (startRun (startRun c).2).2 fid fname sc res2 := by
  refine ⟨rfl, rfl, ?_, ?_, ?_⟩
  · simp [applyAsyncResult, hstale]
  · simp [applyAsyncResult, startRun]
  · simp [applyAsyncResult, startRun]

/-- Witness for C1: the token laws at a concrete field context, token 5,
with a stale token 3 and a concrete failing result. -/
theorem validation_token_latest_wins_witness :
    (3 : Nat) ≠ ({ fld := { token := 5, flags := attachFlags false false }
                   entries := [] } : FieldCtx).fld.token ∧
    ((startRun { fld := { token := 5, flags := attachFlags false false }
                 entries := [] }).1 = 6 ∧
     applyAsyncResult { fld := { token := 5, flags := attachFlags false false }
                        entries := [] } 3 "1" "email" none
       { valid := false, errors := ["e"], failedRules := [("required", "e")] } =
       { fld := { token := 5, flags := attachFlags false false }, entries := [] }) := by
  have h := validation_token_latest_wins
    { fld := { token := 5, flags := attachFlags false false }, entries := [] }
    3 "1" "email" none
    { valid := false, errors := ["e"], failedRules := [("required", "e")] }
    { valid := true, errors := [], failedRules := [] }
    { valid := true, errors := [], failedRules := [] }
    (by decide)
  exact ⟨by decide, h.1, h.2.2.1⟩

end VeeValidate

namespace VeeValidate

/-- C5: `verify(value, rules, options)` is stateless — it returns the
`{valid, errors, failedRules}` shape computed by running the rule
pipeline over the ephemeral rule list, and leaves the attached fields,
the ErrorBag, and all other Validator state unchanged. -/
theorem verify_is_stateless (s : ValidatorState) (v : Val) (rules : List RuleSpec)
    (opts : VerifyOpts) :
    (verify s v rules opts).2 = s ∧
    (verify s v rules opts).2.fields = s.fields ∧
    (verify s v rules opts).2.bag = s.bag ∧
    (verify s v rules opts).2.paused = s.paused ∧
    (verify s v rules opts).2.fastExit = s.fastExit ∧
    (verify s v rules opts).1 =
      runPipeline s.registry (opts.bails.getD s.fastExit) (opts.name.getD "field")
        (fun n => (opts.values.find? (fun p => p.1 == n)).map (fun p => p.2))
        v rules :=
  ⟨rfl, rfl, rfl, rfl, rfl, rfl⟩

/-- C8: while the Validator is paused, `validate` resolves immediately
as valid without running rules, and `validate`/`validateAll` leave all
prior field flags and ErrorBag entries unchanged. -/
theorem paused_validation_is_noop (s : ValidatorState) (fid : String)
    (value : Option Val) (values : List (String × Val)) (hp : s.paused = true) :
    validateField s fid value = (.ok true, s) ∧
    validateAll s values = (.ok true, s) := by
  constructor
  · simp [validateField, hp]
  · simp [validateAll, hp]

/-- Witness for C8: pausing the demo validator makes both calls no-ops
returning valid. -/
theorem paused_validation_is_noop_witness :
    (pauseValidator demoState).paused = true ∧
    validateField (pauseValidator demoState) "2" none =
      (.ok true, pauseValidator demoState) ∧
    validateAll (pauseValidator demoState) [] =
      (.ok true, pauseValidator demoState) := by
  have h := paused_validation_is_noop (pauseValidator demoState) "2" none [] rfl
  exact ⟨rfl, h.1, h.2⟩

/-- C9: `ErrorBag.first(field, scope?)` returns the first error message
recorded for the field (in insertion order), and nothing when the field
has no entry. -/
theorem bag_first_message (items : List ErrItem) (field : String)
    (sc : Option String) :
    ((∀ e ∈ items, errMatches field sc e = false) →
      bagFirst items field sc = none) ∧
    (∀ (pre : List ErrItem) (e : ErrItem) (post : List ErrItem),
      items = pre ++ e :: post →
      (∀ x ∈ pre, errMatches field sc x = false) →
      errMatches field sc e = true →
      bagFirst items field sc = some e.msg) := by
  constructor
  · intro hnone
    have hfil : items.filter (errMatches field sc) = [] := by
      apply List.filter_eq_nil_iff.mpr
      intro a ha
      simp [hnone a ha]
    simp [bagFirst, hfil]
  · intro pre e post hsplit hpre he
    have hfilpre : pre.filter (errMatches field sc) = [] := by
      apply List.filter_eq_nil_iff.mpr
      intro a ha
      simp [hpre a ha]
    simp [bagFirst, hsplit, List.filter_append, hfilpre, List.filter_cons, he]

/-- Witness for C9: on a concrete bag, `first` returns nothing for a
field with no entries and the first message for a field with two. -/
theorem bag_first_message_witness :
    bagFirst [demoErrC] "email" none = none ∧
    bagFirst [demoErrC, demoErrA, demoErrB] "email" none = some "m1" := by
  constructor
  · exact (bag_first_message [demoErrC] "email" none).1 (by decide)
  · exact (bag_first_message [demoErrC, demoErrA, demoErrB] "email" none).2
      [demoErrC] demoErrA [demoErrB] rfl (by decide) (by decide)

end VeeValidate

namespace VeeValidate

/-- C3: with `fastExit`/`bails` enabled, a synchronously failing rule
stops the pipeline — no later rule in the list is executed — and the
field resolves as invalid with exactly the failing rule's single error
entry. -/
theorem bail_stops_after_sync_failure (reg : Registry) (fname : String)
    (env : String → Option Val) (v : Val) (r1 : RuleSpec) (rest : List RuleSpec)
    (rd : RuleDef) (hres : resolveRule reg r1.name = some rd)
    (hfail : rd.validate v (resolveParams rd env r1.params) = .sync (.ok false)) :
    runRulesCore reg true fname env v (r1 :: rest) =
      .ok { valid := false, errors := [messageFor fname r1.name],
            failedRules := [(r1.name, messageFor fname r1.name)],
            executed := [r1.name], pendingAsync := [] } ∧
    runPipeline reg true fname env v (r1 :: rest) =
      .ok { valid := false, errors := [messageFor fname r1.name],
            failedRules := [(r1.name, messageFor fname r1.name)] } := by
  have hcore : runRulesCore reg true fname env v (r1 :: rest) =
      .ok { valid := false, errors := [messageFor fname r1.name],
            failedRules := [(r1.name, messageFor fname r1.name)],
            executed := [r1.name], pendingAsync := [] } := by
    simp [runRulesCore, hres, hfail]
  refine ⟨hcore, ?_⟩
  simp [runPipeline, hcore, joinAsync, Except.map]

/-- Witness for C3: in the demo registry, rule `r1` fails synchronously
ahead of `r2` and `r3`; the run executes only `r1` and yields its single
error. -/
theorem bail_stops_after_sync_failure_witness :
    resolveRule demoReg "r1" = some ruleFail ∧
    runRulesCore demoReg true "f" (fun _ => none) "v"
      [{ name := "r1", params := [] }, { name := "r2", params := [] },
       { name := "r3", params := [] }] =
      .ok { valid := false, errors := [messageFor "f" "r1"],
            failedRules := [("r1", messageFor "f" "r1")],
            executed := ["r1"], pendingAsync := [] } := by
  have h := bail_stops_after_sync_failure demoReg "f" (fun _ => none) "v"
    { name := "r1", params := [] }
    [{ name := "r2", params := [] }, { name := "r3", params := [] }]
    ruleFail rfl rfl
  exact ⟨rfl, h.1⟩

/-- The synchronous sweep always succeeds when every rule name resolves,
whatever the individual predicates return. -/
theorem runRulesCore_total (reg : Registry) (bails : Bool) (fname : String)
    (env : String → Option Val) (v : Val) :
    ∀ rules : List RuleSpec, (∀ r ∈ rules, (resolveRule reg r.name).isSome) →
      ∃ out, runRulesCore reg bails fname env v rules = .ok out := by
  intro rules
  induction rules with
  | nil => exact fun _ => ⟨_, rfl⟩
  | cons r rest ih =>
    intro hall
    obtain ⟨rd, hrd⟩ := Option.isSome_iff_exists.mp
      (hall r (List.mem_cons_self r rest))
    obtain ⟨out, hout⟩ := ih (fun x hx => hall x (List.mem_cons_of_mem r hx))
    cases hval : rd.validate v (resolveParams rd env r.params) with
    | sync o =>
      cases o with
      | ok b =>
        cases b
        · cases bails <;>
            simp [runRulesCore, hrd, hval, hout, Except.map]
        · simp [runRulesCore, hrd, hval, hout, Except.map]
      | threw =>
        cases bails <;>
          simp [runRulesCore, hrd, hval, hout, Except.map]
    | async o =>
      simp [runRulesCore, hrd, hval, hout, Except.map]

/-- C7: validation never rejects because a predicate returned false — a
resolvable rule list always yields a result, for the pipeline and for
`verify`; a rule that throws unexpectedly is recorded as a failed rule
(an error entry), not a success or an exception; and an unknown rule
name is a structural error that rejects the call. -/
theorem rule_failure_handling (reg : Registry) (v : Val) (rules : List RuleSpec) :
    (∀ (bails : Bool) (fname : String) (env : String → Option Val),
      (∀ r ∈ rules, (resolveRule reg r.name).isSome) →
      ∃ res, runPipeline reg bails fname env v rules = .ok res) ∧
    (∀ (s : ValidatorState) (opts : VerifyOpts), s.registry = reg →
      (∀ r ∈ rules, (resolveRule reg r.name).isSome) →
      ∃ res, (verify s v rules opts).1 = .ok res) ∧
    (∀ (bails : Bool) (fname : String) (env : String → Option Val) (r : RuleSpec)
        (rd : RuleDef) (rest : List RuleSpec),
      rules = r :: rest → resolveRule reg r.name = some rd →
      rd.validate v (resolveParams rd env r.params) = .sync .threw →
      (∀ x ∈ rest, (resolveRule reg x.name).isSome) →
      ∃ out, runRulesCore reg bails fname env v rules = .ok out ∧
        out.valid = false ∧
        (r.name, messageFor fname r.name) ∈ out.failedRules) ∧
    (∀ (bails : Bool) (fname : String) (env : String → Option Val) (r : RuleSpec)
        (rest : List RuleSpec),
      rules = r :: rest → resolveRule reg r.name = none →
      runPipeline reg bails fname env v rules = .error (.unknownRule r.name)) := by
  refine ⟨?_, ?_, ?_, ?_⟩
  · intro bails fname env hall
    obtain ⟨out, hout⟩ := runRulesCore_total reg bails fname env v rules hall
    exact ⟨joinAsync bails fname out, by simp [runPipeline, hout, Except.map]⟩
  · intro s opts hreg hall
    obtain ⟨out, hout⟩ := runRulesCore_total s.registry (opts.bails.getD s.fastExit)
      (opts.name.getD "field")
      (fun n => (opts.values.find? (fun p => p.1 == n)).map (fun p => p.2)) v rules
      (by rw [hreg]; exact hall)
    exact ⟨joinAsync (opts.bails.getD s.fastExit) (opts.name.getD "field") out,
      by simp [verify, runPipeline, hout, Except.map]⟩
  · intro bails fname env r rd rest hsplit hrd hthrew hrest
    subst hsplit
    cases bails with
    | true =>
      refine ⟨{ valid := false, errors := [messageFor fname r.name],
                failedRules := [(r.name, messageFor fname r.name)],
                executed := [r.name], pendingAsync := [] }, ?_, rfl, ?_⟩
      · simp [runRulesCore, hrd, hthrew]
      · simp
    | false =>
      obtain ⟨out, hout⟩ := runRulesCore_total reg false fname env v rest hrest
      refine ⟨{ valid := false, errors := messageFor fname r.name :: out.errors,
                failedRules := (r.name, messageFor fname r.name) :: out.failedRules,
                executed := r.name :: out.executed,
                pendingAsync := out.pendingAsync }, ?_, rfl, ?_⟩
      · simp [runRulesCore, hrd, hthrew, hout, Except.map]
      · simp
  · intro bails fname env r rest hsplit hnone
    subst hsplit
    simp [runPipeline, runRulesCore, hnone, Except.map]

/-- Witness for C7: the throwing rule `boom` produces a failed-rule
entry rather than a rejection, and the unregistered name `nope` rejects
with `UnknownRuleError`. -/
theorem rule_failure_handling_witness :
    (∃ out, runRulesCore demoReg true "f" (fun _ => none) "v"
        [{ name := "boom", params := [] }] = .ok out ∧
      out.valid = false ∧
      ("boom", messageFor "f" "boom") ∈ out.failedRules) ∧
    runPipeline demoReg true "f" (fun _ => none) "v"
        [{ name := "nope", params := [] }] = .error (.unknownRule "nope") := by
  constructor
  · exact (rule_failure_handling demoReg "v" [{ name := "boom", params := [] }]).2.2.1
      true "f" (fun _ => none) { name := "boom", params := [] } ruleThrows []
      rfl rfl rfl (by simp)
  · exact (rule_failure_handling demoReg "v" [{ name := "nope", params := [] }]).2.2.2
      true "f" (fun _ => none) { name := "nope", params := [] } [] rfl rfl

end VeeValidate

namespace VeeValidate

/-- A successful result collection pairs every attached field, in order,
with its own pipeline result. -/
theorem collectResults_ok (s : ValidatorState) (values : List (String × Val)) :
    ∀ (fs : List FieldRec) (results : List (FieldRec × RunResult)),
      collectResults s values fs = .ok results →
      results.map Prod.fst = fs ∧
      ∀ p ∈ results, fieldResult s values p.1 = .ok p.2 := by
  intro fs
  induction fs with
  | nil =>
    intro results h
    obtain rfl : ([] : List (FieldRec × RunResult)) = results := by
      simpa [collectResults] using h
    simp
  | cons f fs ih =>
    intro results h
    rw [collectResults] at h
    cases hf : fieldResult s values f with
    | error e => rw [hf] at h; exact absurd h (by simp)
    | ok r =>
      rw [hf] at h
      cases hrec : collectResults s values fs with
      | error e => rw [hrec] at h; exact absurd h (by simp [Except.map])
      | ok l =>
        rw [hrec] at h
        simp only [Except.map] at h
        obtain rfl : (f, r) :: l = results := by
          simpa using h
        obtain ⟨ih1, ih2⟩ := ih l hrec
        refine ⟨by simp [ih1], ?_⟩
        intro p hp
        rcases List.mem_cons.mp hp with hp1 | hp2
        · subst hp1; exact hf
        · exact ih2 p hp2

/-- C6: `validateAll` runs the pipeline for every attached field (the
supplied value map overriding live accessors), all validations issued —
every field pending — before any result is joined, and its aggregate
result is valid exactly when every per-field result is. -/
theorem validateAll_aggregate_iff_all_valid (s : ValidatorState)
    (values : List (String × Val)) (results : List (FieldRec × RunResult))
    (hp : s.paused = false)
    (hok : collectResults s values s.fields = .ok results) :
    (validateAll s values).1 = .ok (results.all (fun p => p.2.valid)) ∧
    (results.all (fun p => p.2.valid) = true ↔ ∀ p ∈ results, p.2.valid = true) ∧
    results.map Prod.fst = s.fields ∧
    (∀ p ∈ results, fieldResult s values p.1 = .ok p.2) ∧
    (validateAll s values).2 = applyAllResults (startAllFields s) results ∧
    ∀ f ∈ (startAllFields s).fields, f.flags.pending = true := by
  obtain ⟨hmap, hres⟩ := collectResults_ok s values s.fields results hok
  refine ⟨?_, List.all_eq_true, hmap, hres, ?_, ?_⟩
  · simp [validateAll, hp, hok]
  · simp [validateAll, hp, hok]
  · intro f hf
    simp only [startAllFields, List.mem_map] at hf
    obtain ⟨g, _, rfl⟩ := hf
    simp [pendingFlags]

/-- Witness for C6: validating the demo state pairs both fields with
their results and aggregates to invalid because the second field's rule
fails. -/
theorem validateAll_aggregate_iff_all_valid_witness :
    demoState.paused = false ∧
    collectResults demoState [] demoState.fields = .ok demoResults ∧
    (validateAll demoState []).1 = .ok (demoResults.all (fun p => p.2.valid)) ∧
    demoResults.map Prod.fst = demoState.fields := by
  have h := validateAll_aggregate_iff_all_valid demoState [] demoResults rfl rfl
  exact ⟨rfl, rfl, h.1, h.2.2.1⟩

end VeeValidate

namespace VeeValidate

/-- Unfolding: an empty worklist ends the cascade. -/
theorem cascadeAux_nil (g : DepGraph) (avail : List String) :
    cascadeAux g [] avail = [] := by
  rw [cascadeAux]

/-- Unfolding: a field not yet revalidated is revalidated and its
dependents are scheduled. -/
theorem cascadeAux_cons_mem (g : DepGraph) (f : String) (rest avail : List String)
    (h : f ∈ avail) :
    cascadeAux g (f :: rest) avail =
      f :: cascadeAux g (rest ++ dependentsOf g f) (avail.erase f) := by
  rw [cascadeAux]
  exact dif_pos h

/-- Unfolding: a field already revalidated in this run is skipped. -/
theorem cascadeAux_cons_not_mem (g : DepGraph) (f : String)
    (rest avail : List String) (h : f ∉ avail) :
    cascadeAux g (f :: rest) avail = cascadeAux g rest avail := by
  rw [cascadeAux]
  exact dif_neg h

/-- The cascade worklist revalidates no field twice and touches only
fields still available for this run. -/
theorem cascadeAux_props (g : DepGraph) (queue avail : List String) :
    avail.Nodup →
    ((cascadeAux g queue avail).Nodup ∧
      ∀ x ∈ cascadeAux g queue avail, x ∈ avail) := by
  induction queue, avail using cascadeAux.induct g with
  | case1 avail =>
    intro _
    simp [cascadeAux_nil]
  | case2 f rest avail h ih =>
    intro hnd
    rw [cascadeAux_cons_mem g f rest avail h]
    obtain ⟨ihn, ihs⟩ := ih (hnd.erase f)
    have hfnot : f ∉ cascadeAux g (rest ++ dependentsOf g f) (avail.erase f) := by
      intro hmem
      exact absurd ((List.Nodup.mem_erase_iff hnd).mp (ihs f hmem)).1 (by simp)
    refine ⟨List.nodup_cons.mpr ⟨hfnot, ihn⟩, ?_⟩
    intro x hx
    rcases List.mem_cons.mp hx with rfl | hx2
    · exact h
    · exact List.mem_of_mem_erase (ihs x hx2)
  | case3 f rest avail h ih =>
    intro hnd
    rw [cascadeAux_cons_not_mem g f rest avail h]
    exact ih hnd

/-- C4: in any cascade run each field is revalidated at most once, no
matter how many dependency paths reach it or whether the graph is
cyclic; in particular with mutually dependent fields A and B, the
cascade triggered by A revalidates A and B exactly once each and
terminates. -/
theorem cascade_revalidates_at_most_once (g : DepGraph) (b : String) :
    (cascadeRun g b).Nodup ∧
    cascadeRun [("A", "B"), ("B", "A")] "A" = ["A", "B"] := by
  constructor
  · exact (cascadeAux_props g [b] _ (List.nodup_dedup _)).1
  · rw [cascadeRun]
    rw [show (("A" :: ([(("A" : String), ("B" : String)), ("B", "A")] : DepGraph).map
        (fun e => e.2)).dedup) = ["B", "A"] from by decide]
    rw [cascadeAux_cons_mem _ _ _ _ (by decide)]
    rw [show ((["B", "A"] : List String).erase "A") = ["B"] from by decide]
    rw [show ([] ++ dependentsOf [("A", "B"), ("B", "A")] "A") = ["B"] from rfl]
    rw [cascadeAux_cons_mem _ _ _ _ (by decide)]
    rw [show ((["B"] : List String).erase "B") = [] from by decide]
    rw [show ([] ++ dependentsOf [("A", "B"), ("B", "A")] "B") = ["A"] from rfl]
    rw [cascadeAux_cons_not_mem _ _ _ _ (by decide)]
    rw [cascadeAux_nil]

end VeeValidate

namespace ServiceWorker

/-- C10: the service worker's message listener calls `skipWaiting` and
posts a reply exactly when the event carries a reply port and its data's
`type` is the string skip-waiting; the reply carries a null error on
fulfillment and the rejection reason on failure; any other message
produces no reply and no state change. -/
theorem sw_message_handler_spec (ev : MsgEvent) (skip : SkipOutcome) :
    ((handleMessage ev skip).skipWaitingCalled = true ↔
      (ev.hasReplyPort = true ∧
        ∃ m, ev.message = some m ∧ m.type = some "skip-waiting")) ∧
    ((handleMessage ev skip).reply.isSome = true ↔
      (handleMessage ev skip).skipWaitingCalled = true) ∧
    (∀ m, ev.message = some m → ev.hasReplyPort = true →
      m.type = some "skip-waiting" →
      (handleMessage ev skip).reply =
        some { error :=
          match skip with
          | .fulfilled => none
          | .rejected reason => some reason }) ∧
    (ev.hasReplyPort = false →
      handleMessage ev skip = { skipWaitingCalled := false, reply := none }) ∧
    (ev.message = none →
      handleMessage ev skip = { skipWaitingCalled := false, reply := none }) := by
  obtain ⟨port, msg⟩ := ev
  cases msg with
  | none =>
    cases skip <;> simp [handleMessage]
  | some m =>
    cases port with
    | false =>
      cases skip <;> simp [handleMessage]
    | true =>
      by_cases ht : m.type = some "skip-waiting"
      · cases skip <;> simp [handleMessage, ht]
      · cases skip <;> simp [handleMessage, ht]

/-- Witness for C10: a skip-waiting message with a reply port whose
`skipWaiting` rejects is answered with the rejection reason, and the
same message without a reply port does nothing. -/
theorem sw_message_handler_spec_witness :
    (handleMessage { hasReplyPort := true, message := some { type := some "skip-waiting" } }
        (.rejected "update failed")).reply = some { error := some "update failed" } ∧
    handleMessage { hasReplyPort := false, message := some { type := some "skip-waiting" } }
        .fulfilled = { skipWaitingCalled := false, reply := none } := by
  constructor
  · exact (sw_message_handler_spec
      { hasReplyPort := true, message := some { type := some "skip-waiting" } }
      (.rejected "update failed")).2.2.1
      { type := some "skip-waiting" } rfl rfl rfl
  · exact (sw_message_handler_spec
      { hasReplyPort := false, message := some { type := some "skip-waiting" } }
      .fulfilled).2.2.2.1 rfl

end ServiceWorker
